import Mathlib

/-!
Verification development for the weather-station ingestion server
(`Server_weath.py`, client `weather_station.py`).

The Python source is shallowly embedded: SQLite storage becomes an explicit
`DB` value, each Python function becomes a Lean function over it, and an
exception that escapes a handler becomes an `Except`/`Option` error value.
The embedding keeps the source's observable semantics for committed state:
`sqlite3` commits once at the end of `save_station_data` (line 156) and a
connection closed with a pending transaction rolls it back, so a failing
save leaves the committed database unchanged; the embedded
`save_station_data` therefore returns the original `DB` together with the
error that was raised.
-/

/-- JSON values as produced by Python `json.loads`.  Numbers are modelled as
exact rationals: the server never performs arithmetic on them, it only
stores and returns them, so pass-through equality is preserved. -/
inductive JVal where
  | jnull : JVal
  | jbool (b : Bool) : JVal
  | jnum (q : Rat) : JVal
  | jstr (s : String) : JVal
  | jarr (elems : List JVal) : JVal
  | jobj (fields : List (String × JVal)) : JVal

/-- A value as stored in an SQLite column after parameter binding. -/
inductive SqlVal where
  | null : SqlVal
  | num (q : Rat) : SqlVal
  | text (s : String) : SqlVal
deriving DecidableEq

/-- Python `sqlite3` parameter binding: `None`, numbers, `bool` (stored as
0/1) and `str` bind; `list`/`dict` raise `InterfaceError` (modelled as
`none`). -/
def bindVal : JVal → Option SqlVal
  | .jnull => some .null
  | .jbool b => some (.num (if b then 1 else 0))
  | .jnum q => some (.num q)
  | .jstr s => some (.text s)
  | .jarr _ => none
  | .jobj _ => none

/-- One row of the global ledger table `weather_data`
(source lines 110-119): `id` is the AUTOINCREMENT primary key. -/
structure Row where
  id : Nat
  station_id : String
  timestamp : SqlVal
  temperature : SqlVal
  humidity : SqlVal
  wind : SqlVal
deriving DecidableEq

/-- One row of a per-station ledger table `{station}_data`
(source lines 141-149); its AUTOINCREMENT id is its position. -/
structure StationRow where
  timestamp : SqlVal
  temperature : SqlVal
  humidity : SqlVal
  wind : SqlVal
deriving DecidableEq

/-- The committed state of `weather.db`: the schema of `weather_data` (if
the table exists), its rows, the AUTOINCREMENT sequence for `weather_data`
and the per-station tables keyed by table name. -/
structure DB where
  schema : Option (List (String × String))
  seq : Nat
  rows : List Row
  stations : List (String × List StationRow)
deriving DecidableEq

/-- Column list of `CREATE TABLE weather_data` (source lines 110-119). -/
def weatherSchema : List (String × String) :=
  [("id", "INTEGER PRIMARY KEY AUTOINCREMENT"), ("station_id", "TEXT"),
   ("timestamp", "REAL"), ("temperature", "REAL"), ("humidity", "REAL"),
   ("wind", "REAL")]

/-- `init_database` (source lines 106-121): `CREATE TABLE IF NOT EXISTS
weather_data` creates the global ledger when absent and leaves any existing
table — and all data — untouched. -/
def init_database (db : DB) : DB :=
  match db.schema with
  | none => { db with schema := some weatherSchema }
  | some _ => db

/-- A character of the class `[a-zA-Z0-9_\x2d]` of `SAFE_NAME`
(source line 19). -/
def safeChar (c : Char) : Bool :=
  c.isAlpha || c.isDigit || c = '_' || c = '-'

/-- `SAFE_NAME.match(name)` for the pattern `^[a-zA-Z0-9_\x2d]+$`
(source lines 19-22).  Python's `$` matches at the end of the string and
also just before a single trailing `'\n'`, so `"a\n"` matches while
`"a\nb"` does not: the pattern accepts exactly the nonempty safe-charset
strings, optionally followed by one final newline. -/
def SAFE_NAME_match (s : String) : Bool :=
  let cs := s.toList
  let core := if cs.getLast? = some '\n' then cs.dropLast else cs
  !core.isEmpty && core.all safeChar

/-- `sanitize` (source lines 21-24): returns the name when `SAFE_NAME`
matches, otherwise raises `ValueError` (modelled as `none`). -/
def sanitize (name : String) : Option String :=
  if SAFE_NAME_match name then some name else none

/-- The dynamically built per-station table name `f"{station}_data"`
(source line 125). -/
def tableName (station : String) : String := station ++ "_data"

/-- First character of an unquoted SQLite identifier: a letter or `_`. -/
def identStartChar (c : Char) : Bool := c.isAlpha || c = '_'

/-- Later character of an unquoted SQLite identifier. -/
def identChar (c : Char) : Bool := c.isAlphanum || c = '_' || c = '$'

/-- Whether a string tokenizes as a single unquoted SQLite identifier, so
that interpolating it into `CREATE TABLE IF NOT EXISTS {table} ...`
(source line 141) parses; any other string makes the statement raise
`sqlite3.OperationalError` (a syntax error).  The names reaching this
check are `sanitize` survivors plus `"_data"`, so only letters, digits,
`_`, `-` and `'\n'` can occur. -/
def validSqlIdent (s : String) : Bool :=
  match s.toList with
  | [] => false
  | c :: cs => identStartChar c && cs.all identChar

/-- Python `dict` lookup on the association list produced by `json.loads`
(duplicate keys: last occurrence wins). -/
def pyGet (kvs : List (String × JVal)) (k : String) : Option JVal :=
  ((kvs.filter (fun p => p.1 = k)).getLast?).map (fun p => p.2)

/-- Largest `id` present in the global ledger (0 when empty). -/
def maxRowId (rows : List Row) : Nat :=
  rows.foldr (fun r m => max r.id m) 0

/-- Look a per-station table up by name (first match). -/
def lookupStation (st : List (String × List StationRow)) (t : String) :
    Option (List StationRow) :=
  match st with
  | [] => none
  | p :: ps => if p.1 = t then some p.2 else lookupStation ps t

/-- `CREATE TABLE IF NOT EXISTS {table}`: adds an empty per-station table
when absent. -/
def ensureStation (st : List (String × List StationRow)) (t : String) :
    List (String × List StationRow) :=
  if (lookupStation st t).isSome then st else st ++ [(t, [])]

/-- `INSERT INTO {table} ...`: append a row to the named table. -/
def addStationRow (st : List (String × List StationRow)) (t : String)
    (r : StationRow) : List (String × List StationRow) :=
  st.map (fun p => if p.1 = t then (p.1, p.2 ++ [r]) else p)

/-- The exception raised out of `save_station_data`, caught by
`process_message` (source lines 175-179). -/
inductive SaveErr where
  | keyError : SaveErr
  | typeError : SaveErr
  | invalidIdentifier : SaveErr
  | storageFailure : SaveErr
deriving DecidableEq

/-- `save_station_data` (source lines 123-157).  Steps, in source order:
`sanitize(data["station_id"])` (KeyError when absent, TypeError when not a
string, ValueError = `invalidIdentifier` when `SAFE_NAME` rejects); then
the global `INSERT` (fails when `weather_data` does not exist or a value
does not bind); then `CREATE TABLE IF NOT EXISTS {station}_data` (syntax
error unless the interpolated name is one identifier token); then the
per-station `INSERT`, whose argument tuple passes `data["wind"]` in the
humidity position and `data["humidity"]` in the wind position
(source line 153); then the single `conn.commit()` (line 156).  An
exception before the commit leaves the committed database unchanged
(WAL transaction rolled back), so the error cases return `db` itself. -/
def save_station_data (data : List (String × JVal)) (db : DB) :
    DB × Option SaveErr :=
  match pyGet data "station_id" with
  | none => (db, some .keyError)
  | some sv =>
    match sv with
    | .jstr station =>
      if SAFE_NAME_match station = false then (db, some .invalidIdentifier)
      else
        match pyGet data "timestamp", pyGet data "temperature",
              pyGet data "humidity", pyGet data "wind" with
        | some jts, some jt, some jh, some jw =>
          if db.schema.isNone then (db, some .storageFailure)
          else
            match bindVal jts, bindVal jt, bindVal jh, bindVal jw with
            | some ts, some t, some h, some w =>
              if validSqlIdent (tableName station) = false then
                (db, some .storageFailure)
              else
                let newId := max db.seq (maxRowId db.rows) + 1
                let grow : Row := ⟨newId, station, ts, t, h, w⟩
                let srow : StationRow := ⟨ts, t, w, h⟩
                ({ db with
                    seq := newId,
                    rows := db.rows ++ [grow],
                    stations :=
                      addStationRow (ensureStation db.stations (tableName station))
                        (tableName station) srow }, none)
            | _, _, _, _ => (db, some .storageFailure)
        | _, _, _, _ => (db, some .keyError)
    | _ => (db, some .typeError)

/-- The tuple returned for one row by the `SELECT station_id, timestamp,
temperature, humidity, wind` of `get_latest_data` (source lines 48-53). -/
def projRow (r : Row) : String × SqlVal × SqlVal × SqlVal × SqlVal :=
  (r.station_id, r.timestamp, r.temperature, r.humidity, r.wind)

deriving instance DecidableEq for Except

/-- `ORDER BY id DESC` comparison. -/
def idDesc (a b : Row) : Prop := b.id ≤ a.id

instance : DecidableRel idDesc := fun a b => Nat.decLe b.id a.id

/-- `get_latest_data` (source lines 44-58): `SELECT ... FROM weather_data
ORDER BY id DESC LIMIT ?`.  The query raises `OperationalError` when the
table does not exist.  `limit` is a Python `int`; SQLite treats a negative
`LIMIT` as "no limit". -/
def get_latest_data (limit : Int) (db : DB) :
    Except Unit (List (String × SqlVal × SqlVal × SqlVal × SqlVal)) :=
  if db.schema.isNone then .error ()
  else .ok ((if limit < 0 then List.insertionSort idDesc db.rows
             else (List.insertionSort idDesc db.rows).take limit.toNat).map
      projRow)

/-- Python `str.split(sep)` for a one-character separator: keeps empty
pieces, `"".split(sep) == [""]`. -/
def pySplit (sep : Char) : List Char → List (List Char)
  | [] => [[]]
  | c :: cs =>
    match pySplit sep cs with
    | [] => [[c]]
    | p :: ps => if c = sep then [] :: p :: ps else (c :: p) :: ps

/-- `extract_station_location` (source lines 30-41):
`parts = station_id.split("_")`; the last part when there are at least
two, the whole identifier otherwise. -/
def extract_station_location (station_id : String) : String :=
  let parts := pySplit '_' station_id.toList
  if 1 < parts.length then ⟨parts.getLastD []⟩ else station_id

/-- The database state right after `init_database` on a fresh file. -/
def db0 : DB := { schema := some weatherSchema, seq := 0, rows := [], stations := [] }

/-- The Unicode replacement character U+FFFD emitted by
`bytes.decode("utf-8", errors="replace")` for each maximal invalid
subpart. -/
def replChar : Char := Char.ofNat 0xFFFD

/-- UTF-8 continuation byte `0x80..0xBF`. -/
def isCont (b : Nat) : Bool := 0x80 ≤ b && b ≤ 0xBF

/-- Admissible first continuation byte after a three-byte lead: `0xE0`
requires `0xA0..0xBF` (no overlongs), `0xED` requires `0x80..0x9F`
(no surrogates), the rest take any continuation byte. -/
def cont3ok (b b2 : Nat) : Bool :=
  if b = 0xE0 then 0xA0 ≤ b2 && b2 ≤ 0xBF
  else if b = 0xED then 0x80 ≤ b2 && b2 ≤ 0x9F
  else isCont b2

/-- Admissible first continuation byte after a four-byte lead: `0xF0`
requires `0x90..0xBF` (no overlongs), `0xF4` requires `0x80..0x8F`
(codepoints up to U+10FFFF), the rest take any continuation byte. -/
def cont4ok (b b2 : Nat) : Bool :=
  if b = 0xF0 then 0x90 ≤ b2 && b2 ≤ 0xBF
  else if b = 0xF4 then 0x80 ≤ b2 && b2 ≤ 0x8F
  else isCont b2

/-- `data.decode("utf-8", errors="replace")` (source line 200): total
UTF-8 decoding where each maximal invalid subpart becomes one `U+FFFD`;
after a truncated sequence decoding resumes at the offending byte. -/
def utf8DecodeReplace : List Nat → List Char
  | [] => []
  | b :: bs =>
    if b ≤ 0x7F then Char.ofNat b :: utf8DecodeReplace bs
    else if 0xC2 ≤ b && b ≤ 0xDF then
      match bs with
      | b2 :: bs2 =>
        if isCont b2 then
          Char.ofNat ((b - 0xC0) * 64 + (b2 - 0x80)) :: utf8DecodeReplace bs2
        else replChar :: utf8DecodeReplace (b2 :: bs2)
      | [] => [replChar]
    else if 0xE0 ≤ b && b ≤ 0xEF then
      match bs with
      | b2 :: bs2 =>
        if cont3ok b b2 then
          match bs2 with
          | b3 :: bs3 =>
            if isCont b3 then
              Char.ofNat ((b - 0xE0) * 4096 + (b2 - 0x80) * 64 + (b3 - 0x80)) ::
                utf8DecodeReplace bs3
            else replChar :: utf8DecodeReplace (b3 :: bs3)
          | [] => [replChar]
        else replChar :: utf8DecodeReplace (b2 :: bs2)
      | [] => [replChar]
    else if 0xF0 ≤ b && b ≤ 0xF4 then
      match bs with
      | b2 :: bs2 =>
        if cont4ok b b2 then
          match bs2 with
          | b3 :: bs3 =>
            if isCont b3 then
              match bs3 with
              | b4 :: bs4 =>
                if isCont b4 then
                  Char.ofNat ((b - 0xF0) * 262144 + (b2 - 0x80) * 4096 +
                    (b3 - 0x80) * 64 + (b4 - 0x80)) :: utf8DecodeReplace bs4
                else replChar :: utf8DecodeReplace (b4 :: bs4)
              | [] => [replChar]
            else replChar :: utf8DecodeReplace (b3 :: bs3)
          | [] => [replChar]
        else replChar :: utf8DecodeReplace (b2 :: bs2)
      | [] => [replChar]
    else replChar :: utf8DecodeReplace bs

/-- Whether a byte sequence is well-formed UTF-8 (same sequence alphabet
as the decoder: no overlongs, no surrogates, codepoints ≤ U+10FFFF). -/
def validUtf8 : List Nat → Bool
  | [] => true
  | b :: bs =>
    if b ≤ 0x7F then validUtf8 bs
    else if 0xC2 ≤ b && b ≤ 0xDF then
      match bs with
      | b2 :: bs2 => isCont b2 && validUtf8 bs2
      | [] => false
    else if 0xE0 ≤ b && b ≤ 0xEF then
      match bs with
      | b2 :: bs2 =>
        if cont3ok b b2 then
          match bs2 with
          | b3 :: bs3 => isCont b3 && validUtf8 bs3
          | [] => false
        else false
      | [] => false
    else if 0xF0 ≤ b && b ≤ 0xF4 then
      match bs with
      | b2 :: bs2 =>
        if cont4ok b b2 then
          match bs2 with
          | b3 :: bs3 =>
            if isCont b3 then
              match bs3 with
              | b4 :: bs4 => isCont b4 && validUtf8 bs4
              | [] => false
            else false
          | [] => false
        else false
      | [] => false
    else false

/-- A character stripped by Python `str.strip()` with no argument
(CPython `str.isspace`: ASCII whitespace, the C1 separators, NEL, NBSP
and the Unicode space/line/paragraph separators). -/
def pyIsSpace (c : Char) : Bool :=
  let n := c.toNat
  (0x09 ≤ n && n ≤ 0x0D) || n = 0x20 || (0x1C ≤ n && n ≤ 0x1F) ||
    n = 0x85 || n = 0xA0 || n = 0x1680 || (0x2000 ≤ n && n ≤ 0x200A) ||
    n = 0x2028 || n = 0x2029 || n = 0x202F || n = 0x205F || n = 0x3000

/-- Python `str.strip()`: drop whitespace from both ends. -/
def pyStrip (cs : List Char) : List Char :=
  (((cs.dropWhile pyIsSpace).reverse).dropWhile pyIsSpace).reverse

/-- JSON insignificant whitespace (RFC 8259): space, tab, LF, CR. -/
def isJsonWs (c : Char) : Bool := c = ' ' || c = '\t' || c = '\n' || c = '\r'

/-- Skip JSON whitespace. -/
def skipWs (cs : List Char) : List Char := cs.dropWhile isJsonWs

/-- A character that can occur in a JSON number token. -/
def isNumChar (c : Char) : Bool :=
  c.isDigit || c = '-' || c = '+' || c = '.' || c = 'e' || c = 'E'

/-- Value of a digit string. -/
def digitsVal (ds : List Char) : Nat :=
  ds.foldl (fun a c => a * 10 + (c.toNat - 48)) 0

/-- Build `sgn * mant * 10^e` as an exact rational (numerator and
denominator stay in `Int`/`Nat` so the construction computes). -/
def ratOfParts (sgn : Int) (mant : Nat) (e : Int) : Rat :=
  if 0 ≤ e then mkRat (sgn * ((mant * 10 ^ e.toNat : Nat) : Int)) 1
  else mkRat (sgn * (mant : Int)) (10 ^ (-e).toNat)

/-- Value of a complete JSON number token
(`-?(0|[1-9][0-9]*)(\.[0-9]+)?([eE][+-]?[0-9]+)?`), `none` when the token
does not match the grammar. -/
def numVal (tok : List Char) : Option Rat :=
  let st : Int × List Char :=
    match tok with
    | '-' :: r => (-1, r)
    | _ => (1, tok)
  let ip := st.2.takeWhile Char.isDigit
  let r1 := st.2.dropWhile Char.isDigit
  if ip.isEmpty then none
  else if 1 < ip.length && ip.headD '0' = '0' then none
  else
    let fr : Option (Nat × Nat × List Char) :=
      match r1 with
      | '.' :: r2 =>
        let fd := r2.takeWhile Char.isDigit
        if fd.isEmpty then none
        else some (digitsVal fd, fd.length, r2.dropWhile Char.isDigit)
      | _ => some (0, 0, r1)
    match fr with
    | none => none
    | some (fdN, fdLen, r3) =>
      let ex : Option Int :=
        match r3 with
        | [] => some 0
        | e :: r4 =>
          if e = 'e' || e = 'E' then
            let sr : Int × List Char :=
              match r4 with
              | '+' :: rr => (1, rr)
              | '-' :: rr => (-1, rr)
              | _ => (1, r4)
            let ed := sr.2.takeWhile Char.isDigit
            if ed.isEmpty || !(sr.2.dropWhile Char.isDigit).isEmpty then none
            else some (sr.1 * (digitsVal ed : Int))
          else none
      match ex with
      | none => none
      | some e =>
        some (ratOfParts st.1 (digitsVal ip * 10 ^ fdLen + fdN)
          (e - (fdLen : Int)))

/-- Hexadecimal digit value. -/
def hexVal (c : Char) : Option Nat :=
  if c.isDigit then some (c.toNat - 48)
  else if 'a' ≤ c && c ≤ 'f' then some (c.toNat - 87)
  else if 'A' ≤ c && c ≤ 'F' then some (c.toNat - 55)
  else none

/-- Body of a JSON string literal after the opening quote, in Python's
strict mode: raw control characters below U+0020 are rejected, the
standard escapes and `\uXXXX` (with surrogate pairs combined) are decoded.
A lone surrogate escape — which CPython would keep as an unpaired
surrogate code unit, unrepresentable in `Char` — fails the parse. -/
def parseStringRest (acc : List Char) (cs : List Char) :
    Option (String × List Char) :=
  match cs with
  | [] => none
  | c :: cs1 =>
    if c = '"' then some (⟨acc.reverse⟩, cs1)
    else if c = '\\' then
      match cs1 with
      | [] => none
      | e :: cs2 =>
        if e = '"' then parseStringRest ('"' :: acc) cs2
        else if e = '\\' then parseStringRest ('\\' :: acc) cs2
        else if e = '/' then parseStringRest ('/' :: acc) cs2
        else if e = 'b' then parseStringRest (Char.ofNat 8 :: acc) cs2
        else if e = 'f' then parseStringRest (Char.ofNat 12 :: acc) cs2
        else if e = 'n' then parseStringRest ('\n' :: acc) cs2
        else if e = 'r' then parseStringRest ('\r' :: acc) cs2
        else if e = 't' then parseStringRest ('\t' :: acc) cs2
        else if e = 'u' then
          match cs2 with
          | h1 :: h2 :: h3 :: h4 :: cs3 =>
            match hexVal h1, hexVal h2, hexVal h3, hexVal h4 with
            | some a, some b, some c3, some d =>
              let n := a * 4096 + b * 256 + c3 * 16 + d
              if 0xD800 ≤ n && n ≤ 0xDBFF then
                match cs3 with
                | '\\' :: 'u' :: g1 :: g2 :: g3 :: g4 :: cs4 =>
                  match hexVal g1, hexVal g2, hexVal g3, hexVal g4 with
                  | some a2, some b2, some c4, some d2 =>
                    let m := a2 * 4096 + b2 * 256 + c4 * 16 + d2
                    if 0xDC00 ≤ m && m ≤ 0xDFFF then
                      parseStringRest
                        (Char.ofNat (0x10000 + (n - 0xD800) * 1024 + (m - 0xDC00)) :: acc)
                        cs4
                    else none
                  | _, _, _, _ => none
                | _ => none
              else if 0xDC00 ≤ n && n ≤ 0xDFFF then none
              else parseStringRest (Char.ofNat n :: acc) cs3
            | _, _, _, _ => none
          | _ => none
        else none
    else if c.toNat < 0x20 then none
    else parseStringRest (c :: acc) cs1

/-- The character `U+007B` (object opener). -/
def lbrace : Char := Char.ofNat 123

/-- The character `U+007D` (object closer). -/
def rbrace : Char := Char.ofNat 125

/-- The error a `json.loads` call can raise: `JSONDecodeError` (caught by
`process_message`, source line 165) or `RecursionError` from CPython's
recursion guard (NOT caught by `except json.JSONDecodeError`, so it
escapes `process_message`). -/
inductive JErr where
  | fail : JErr
  | recursion : JErr
deriving DecidableEq

/-- CPython's default recursion limit (`sys.getrecursionlimit()`).  The C
scanner of `json` wraps every nested object/array parse in
`Py_EnterRecursiveCall`, which raises `RecursionError` once container
nesting exhausts this budget.  The model counts nesting from a zero
baseline; the live threshold is this limit minus the interpreter stack
already in use when `json.loads` runs. -/
def pyRecursionLimit : Nat := 1000

/-- Parser mode: one JSON value, the members of an object, or the
elements of an array.  The three mutually recursive parsers are packed
into one fuel-indexed function so that recursion is structural on the
fuel and the definition computes inside the kernel. -/
inductive PMode where
  | pval : PMode
  | pmembers : PMode
  | pelems : PMode

/-- Parser result for the corresponding mode. -/
inductive PRes where
  | rv (v : JVal) : PRes
  | rm (ms : List (String × JVal)) : PRes
  | re (vs : List JVal) : PRes

/-- Recursive-descent core for `json.loads`: skip whitespace, dispatch on
the first character; returns the parsed item and the unconsumed rest, or
the raised error.  Entering an object or array increments `depth` and
raises `RecursionError` once `pyRecursionLimit` is reached, mirroring the
`Py_EnterRecursiveCall` in CPython's scanner; every other parse failure
is `JSONDecodeError`.  `fuel` only bounds recursion depth of the
definition itself; `jsonParse` supplies enough for any input.  In
`pmembers`/`pelems` mode the input starts at a (whitespace-free) member
or element. -/
def parseF : Nat → Nat → PMode → List Char → Except JErr (PRes × List Char)
  | 0, _, _, _ => .error .fail
  | Nat.succ fuel, depth, PMode.pval, cs =>
    match skipWs cs with
    | [] => .error .fail
    | c :: cs1 =>
      if c = lbrace then
        if pyRecursionLimit ≤ depth then .error .recursion
        else
          match skipWs cs1 with
          | c2 :: cs2 =>
            if c2 = rbrace then .ok (.rv (.jobj []), cs2)
            else
              match parseF fuel (depth + 1) .pmembers (c2 :: cs2) with
              | .ok (.rm ms, rest) => .ok (.rv (.jobj ms), rest)
              | .ok _ => .error .fail
              | .error e => .error e
          | [] => .error .fail
      else if c = '[' then
        if pyRecursionLimit ≤ depth then .error .recursion
        else
          match skipWs cs1 with
          | c2 :: cs2 =>
            if c2 = ']' then .ok (.rv (.jarr []), cs2)
            else
              match parseF fuel (depth + 1) .pelems (c2 :: cs2) with
              | .ok (.re vs, rest) => .ok (.rv (.jarr vs), rest)
              | .ok _ => .error .fail
              | .error e => .error e
          | [] => .error .fail
      else if c = '"' then
        match parseStringRest [] cs1 with
        | some p => .ok (.rv (.jstr p.1), p.2)
        | none => .error .fail
      else if c = 't' then
        match cs1 with
        | 'r' :: 'u' :: 'e' :: r => .ok (.rv (.jbool true), r)
        | _ => .error .fail
      else if c = 'f' then
        match cs1 with
        | 'a' :: 'l' :: 's' :: 'e' :: r => .ok (.rv (.jbool false), r)
        | _ => .error .fail
      else if c = 'n' then
        match cs1 with
        | 'u' :: 'l' :: 'l' :: r => .ok (.rv .jnull, r)
        | _ => .error .fail
      else if c.isDigit || c = '-' then
        match numVal ((c :: cs1).takeWhile isNumChar) with
        | some q => .ok (.rv (.jnum q), (c :: cs1).dropWhile isNumChar)
        | none => .error .fail
      else .error .fail
  | Nat.succ fuel, depth, PMode.pmembers, cs =>
    match cs with
    | '"' :: cs1 =>
      match parseStringRest [] cs1 with
      | some (key, cs2) =>
        match skipWs cs2 with
        | ':' :: cs3 =>
          match parseF fuel depth .pval cs3 with
          | .ok (.rv v, cs4) =>
            match skipWs cs4 with
            | ',' :: cs5 =>
              match parseF fuel depth .pmembers (skipWs cs5) with
              | .ok (.rm ms, cs6) => .ok (.rm ((key, v) :: ms), cs6)
              | .ok _ => .error .fail
              | .error e => .error e
            | c :: cs5 => if c = rbrace then .ok (.rm [(key, v)], cs5) else .error .fail
            | [] => .error .fail
          | .ok _ => .error .fail
          | .error e => .error e
        | _ => .error .fail
      | none => .error .fail
    | _ => .error .fail
  | Nat.succ fuel, depth, PMode.pelems, cs =>
    match parseF fuel depth .pval cs with
    | .ok (.rv v, cs1) =>
      match skipWs cs1 with
      | ',' :: cs2 =>
        match parseF fuel depth .pelems (skipWs cs2) with
        | .ok (.re vs, cs3) => .ok (.re (v :: vs), cs3)
        | .ok _ => .error .fail
        | .error e => .error e
      | c :: cs2 => if c = ']' then .ok (.re [v], cs2) else .error .fail
      | [] => .error .fail
    | .ok _ => .error .fail
    | .error e => .error e

/-- One JSON value: `parseF` in value mode. -/
def parseVal (fuel depth : Nat) (cs : List Char) :
    Except JErr (JVal × List Char) :=
  match parseF fuel depth .pval cs with
  | .ok (.rv v, rest) => .ok (v, rest)
  | .ok _ => .error .fail
  | .error e => .error e

/-- `json.loads(message)` (source line 164): parse one JSON document,
allowing trailing whitespace only ("Extra data", a `JSONDecodeError`,
otherwise); container nesting beyond `pyRecursionLimit` raises
`RecursionError`.  The nonstandard CPython constants `NaN`/`Infinity`
are not modelled. -/
def jsonParse (s : String) : Except JErr JVal :=
  match parseVal (2 * s.toList.length + 2) 0 s.toList with
  | .ok (v, rest) => if (skipWs rest).isEmpty then .ok v else .error .fail
  | .error e => .error e

/-- The five required payload keys (source line 169). -/
def requiredKeys : List String :=
  ["station_id", "timestamp", "temperature", "humidity", "wind"]

/-- `required.issubset(data)` (source line 171).  Iterating a parsed JSON
value: a dict yields its keys, a list its elements (a key is "present"
when an element equals it), a string its substrings (Python `in` on `str`
is substring containment); a number, bool or `None` is not iterable, so
`issubset` raises `TypeError` (`none`), which `process_message` does not
catch. -/
def requiredSubset : JVal → Option Bool
  | .jobj kvs => some (requiredKeys.all (fun k => kvs.any (fun p => p.1 = k)))
  | .jarr xs =>
    some (requiredKeys.all (fun k => xs.any (fun x =>
      match x with
      | .jstr s => s = k
      | _ => false)))
  | .jstr s =>
    some (requiredKeys.all (fun k => (s.toList.tails).any
      (fun t => k.toList.isPrefixOf t)))
  | _ => none

/-- `process_message` (source lines 162-179).  `json.JSONDecodeError` is
caught and the frame discarded, but a `RecursionError` from the decoder's
nesting guard escapes (`Except.error ()`), as does the `TypeError` that
`required.issubset(data)` raises on a non-iterable value — both propagate
into `handle_client`; a payload with missing keys is discarded; otherwise
`save_station_data(data)` runs inside `try/except Exception`, so a save
failure leaves the committed state unchanged and the message loop
continues (subscripting a non-dict inside `save_station_data` raises
there and is caught the same way). -/
def process_message (message : String) (db : DB) : Except Unit DB :=
  match jsonParse message with
  | .error .fail => .ok db
  | .error .recursion => .error ()
  | .ok v =>
    match requiredSubset v with
    | none => .error ()
    | some false => .ok db
    | some true =>
      match v with
      | .jobj kvs => .ok (save_station_data kvs db).1
      | _ => .ok db

/-- One iteration of the `handle_client` read loop (source lines 200-206):
decode the received line with `errors="replace"`, `strip()` it, drop it
when the resulting string is longer than 2048 characters, otherwise hand
it to `process_message`.  `Except.error` is an exception escaping
`process_message`, which the outer `try` turns into connection
teardown. -/
def handleFrame (db : DB) (frame : List Nat) : Except Unit DB :=
  let message : String := ⟨pyStrip (utf8DecodeReplace frame)⟩
  if 2048 < message.length then .ok db
  else process_message message db

/-- The `handle_client` read loop (source lines 184-214) over the sequence
of frames delivered by `reader.readline()`: an empty read is end-of-stream
(`break`), a frame-level exception aborts the loop (the connection is
closed, later frames are never read), otherwise the loop continues with
the updated committed state.  The result is the committed database when
the connection ends. -/
def handle_client (frames : List (List Nat)) (db : DB) : DB :=
  match frames with
  | [] => db
  | f :: rest =>
    if f = [] then db
    else
      match handleFrame db f with
      | .ok db2 => handle_client rest db2
      | .error _ => db

/-- Bytes of an ASCII string (used to spell out concrete test frames). -/
def asciiBytes (s : String) : List Nat := s.toList.map Char.toNat

/-- The rows rendered by the dashboard handler `handle_web` (source lines
61-96): the latest 40 readings with the station id replaced by the derived
location label; purely a read — the handler never writes to storage. -/
def handle_web (db : DB) :
    Except Unit (List (String × SqlVal × SqlVal × SqlVal × SqlVal)) :=
  (get_latest_data 40 db).map
    (fun rows => rows.map (fun r => (extract_station_location r.1, r.2)))

/-! ### Helper lemmas -/

lemma init_init (db : DB) :
    init_database (init_database db) = init_database db := by
  cases h : db.schema <;> simp [init_database, h]

lemma init_iterate (m : Nat) (db : DB) :
    init_database^[m + 1] db = init_database db := by
  induction m generalizing db with
  | zero => simp
  | succ k ih => rw [Function.iterate_succ_apply, ih, init_init]

lemma takeWhile_append_of_all {p : Char → Bool} (l1 l2 : List Char)
    (h : ∀ c ∈ l1, p c = true) :
    (l1 ++ l2).takeWhile p = l1 ++ l2.takeWhile p := by
  induction l1 with
  | nil => simp
  | cons a l ih =>
    have ha := h a (by simp)
    simp [List.takeWhile, ha, ih (fun c hc => h c (by simp [hc]))]

lemma takeWhile_append_of_mem {sep : Char} (l1 l2 : List Char) (h : sep ∈ l1) :
    (l1 ++ l2).takeWhile (fun c => c ≠ sep) =
      l1.takeWhile (fun c => c ≠ sep) := by
  induction l1 with
  | nil => simp at h
  | cons a l ih =>
    by_cases ha : a = sep
    · subst ha
      simp [List.takeWhile_cons]
    · have h1 : sep ∈ l := by
        rcases List.mem_cons.mp h with h2 | h2
        · exact absurd h2.symm ha
        · exact h2
      rw [List.cons_append, List.takeWhile_cons, List.takeWhile_cons, ih h1]

lemma pySplit_ne_nil (sep : Char) (cs : List Char) : pySplit sep cs ≠ [] := by
  induction cs with
  | nil => simp [pySplit]
  | cons c cs ih =>
    simp only [pySplit]
    cases h : pySplit sep cs with
    | nil => simp
    | cons p ps => by_cases hc : c = sep <;> simp [hc]

lemma pySplit_length (sep : Char) (cs : List Char) :
    1 < (pySplit sep cs).length ↔ sep ∈ cs := by
  induction cs with
  | nil => simp [pySplit]
  | cons c cs ih =>
    simp only [pySplit]
    cases h : pySplit sep cs with
    | nil => exact absurd h (pySplit_ne_nil sep cs)
    | cons p ps =>
      rw [h] at ih
      by_cases hc : c = sep
      · subst hc; simp
      · simp only [if_neg hc, List.length_cons, List.mem_cons]
        simp only [List.length_cons] at ih
        constructor
        · intro hl; exact Or.inr (ih.mp hl)
        · rintro (h1 | h1)
          · exact absurd h1.symm hc
          · exact ih.mpr h1

lemma pySplit_of_not_mem {sep : Char} {cs : List Char} (h : sep ∉ cs) :
    pySplit sep cs = [cs] := by
  induction cs with
  | nil => simp [pySplit]
  | cons c cs ih =>
    have hc : c ≠ sep := fun e => h (by simp [e])
    have := ih (fun e => h (by simp [e]))
    simp [pySplit, this, hc]

lemma pySplit_getLast (sep : Char) (cs : List Char) :
    (pySplit sep cs).getLastD [] =
      (cs.reverse.takeWhile (fun c => c ≠ sep)).reverse := by
  induction cs with
  | nil => simp [pySplit]
  | cons c cs ih =>
    by_cases hm : sep ∈ cs
    · have hmr : sep ∈ cs.reverse := by simpa using hm
      rw [List.reverse_cons, takeWhile_append_of_mem _ _ hmr]
      rw [← ih]
      simp only [pySplit]
      cases h : pySplit sep cs with
      | nil => exact absurd h (pySplit_ne_nil sep cs)
      | cons p ps =>
        by_cases hc : c = sep
        · simp [hc, List.getLastD_cons]
        · simp only [if_neg hc]
          cases ps with
          | nil =>
            exfalso
            have := (pySplit_length sep cs).mpr hm
            rw [h] at this
            simp at this
          | cons q qs => simp [List.getLastD_cons]
    · have hall : ∀ x ∈ cs.reverse, (fun y => decide (y ≠ sep)) x = true := by
        intro x hx
        have hxc : x ∈ cs := by simpa using hx
        have hne : x ≠ sep := fun e => hm (e ▸ hxc)
        simpa using hne
      rw [pySplit_of_not_mem hm] at ih
      simp only [pySplit, pySplit_of_not_mem hm]
      rw [List.reverse_cons, takeWhile_append_of_all _ _ hall]
      by_cases hc : c = sep
      · subst hc
        simp [List.takeWhile, List.getLastD_cons]
      · simp [List.takeWhile, hc, List.getLastD_cons]

lemma orderedInsert_eq_append (a : Row) (l : List Row)
    (h : ∀ b ∈ l, ¬ idDesc a b) :
    List.orderedInsert idDesc a l = l ++ [a] := by
  induction l with
  | nil => simp [List.orderedInsert]
  | cons b l ih =>
    have hb := h b (by simp)
    simp only [List.orderedInsert, if_neg hb, List.cons_append]
    rw [ih (fun x hx => h x (by simp [hx]))]

lemma insertionSort_eq_reverse (l : List Row)
    (h : l.Pairwise (fun a b => a.id < b.id)) :
    List.insertionSort idDesc l = l.reverse := by
  induction l with
  | nil => simp [List.insertionSort]
  | cons a l ih =>
    rcases List.pairwise_cons.mp h with ⟨h1, h2⟩
    simp only [List.insertionSort]
    rw [ih h2, List.reverse_cons]
    exact orderedInsert_eq_append a l.reverse
      (fun b hb => by
        have : a.id < b.id := h1 b (List.mem_reverse.mp hb)
        simp only [idDesc]; omega)

/-- C7: `init_database` is idempotent — for every starting state and every
`N ≥ 1`, running it `N` times yields exactly the state of running it once,
an existing `weather_data` schema is kept as is, and no rows, per-station
tables or sequence values are destroyed or altered. -/
theorem init_database_idempotent (db : DB) (n : Nat) (hn : 1 ≤ n) :
    init_database^[n] db = init_database db ∧
    (init_database db).rows = db.rows ∧
    (init_database db).stations = db.stations ∧
    (init_database db).seq = db.seq ∧
    (∀ s, db.schema = some s → (init_database db).schema = some s) := by
  refine ⟨?_, ?_, ?_, ?_, ?_⟩
  · obtain ⟨m, rfl⟩ : ∃ m, n = m + 1 := ⟨n - 1, by omega⟩
    exact init_iterate m db
  · cases h : db.schema <;> simp [init_database, h]
  · cases h : db.schema <;> simp [init_database, h]
  · cases h : db.schema <;> simp [init_database, h]
  · intro s hs; simp [init_database, hs]

/-- The state of `weather.db` before `init_database` has ever run. -/
def dbBlank : DB := { schema := none, seq := 0, rows := [], stations := [] }

/-- Witness for C7 at a concrete input: two runs on a fresh file equal
one run, which preserves the (empty) data. -/
theorem init_database_idempotent_witness :
    init_database^[2] dbBlank = init_database dbBlank ∧
    (init_database dbBlank).rows = dbBlank.rows ∧
    (init_database dbBlank).stations = dbBlank.stations ∧
    (init_database dbBlank).seq = dbBlank.seq ∧
    (∀ s, dbBlank.schema = some s → (init_database dbBlank).schema = some s) :=
  init_database_idempotent dbBlank 2 (by decide)

/-! ### C8: the dashboard's derived display label -/

/-- C8: for every `station_id`, `extract_station_location` returns the
substring after the final `'_'` when the identifier contains one, and the
whole identifier otherwise.  (It is only ever called from the dashboard
renderer `handle_web`; storage addressing in `save_station_data` uses
`tableName`, which never consults it.) -/
theorem extract_station_location_spec (s : String) :
    extract_station_location s =
      if '_' ∈ s.toList then
        ⟨(s.toList.reverse.takeWhile (fun c => c ≠ '_')).reverse⟩
      else s := by
  by_cases hm : '_' ∈ s.toList
  · have hlen : 1 < (pySplit '_' s.toList).length :=
      (pySplit_length '_' s.toList).mpr hm
    simp only [extract_station_location, if_pos hlen, if_pos hm]
    rw [pySplit_getLast]
  · have hlen : ¬ 1 < (pySplit '_' s.toList).length := by
      rw [pySplit_length]; exact hm
    simp only [extract_station_location, if_neg hlen, if_neg hm]

/-! ### `save_station_data` characterisation -/

/-- A well-typed reading payload, as the sensor client sends it
(`weather_station.py` lines 88-94): a string station id and four numeric
fields. -/
def mkRecord (sid : String) (ts t h w : Rat) : List (String × JVal) :=
  [("station_id", JVal.jstr sid), ("timestamp", JVal.jnum ts),
   ("temperature", JVal.jnum t), ("humidity", JVal.jnum h),
   ("wind", JVal.jnum w)]

lemma pyGet_mk_station (sid : String) (ts t h w : Rat) :
    pyGet (mkRecord sid ts t h w) "station_id" = some (JVal.jstr sid) := rfl

/-- The database after saving the reading `("s1", 1, 2, 3, 4)` into a
freshly initialised file: note the swapped columns in `s1_data`. -/
def dbOne : DB :=
  { schema := some weatherSchema, seq := 1,
    rows := [⟨1, "s1", .num 1, .num 2, .num 3, .num 4⟩],
    stations := [("s1_data", [⟨.num 1, .num 2, .num 4, .num 3⟩])] }

lemma ident_of_safe_newline {sid : String}
    (hm : SAFE_NAME_match sid = true)
    (hu : ∃ c ∈ sid.toList, safeChar c = false) :
    validSqlIdent (tableName sid) = false := by
  obtain ⟨c, hc, hcf⟩ := hu
  by_cases hl : sid.toList.getLast? = some '\n'
  · have hrep : sid.toList.dropLast ++ ['\n'] = sid.toList :=
      List.dropLast_append_getLast? '\n' hl
    have hdata : (tableName sid).toList =
        sid.toList.dropLast ++ '\n' :: "_data".toList := by
      show (sid ++ "_data").toList = _
      rw [show (sid ++ "_data").toList = sid.toList ++ "_data".toList from rfl,
        ← hrep]
      simp
    rw [validSqlIdent, hdata]
    cases hd : sid.toList.dropLast with
    | nil => decide
    | cons c0 cl =>
      have hmem : '\n' ∈ cl ++ '\n' :: "_data".toList := by simp
      have hall : (cl ++ '\n' :: "_data".toList).all identChar = false := by
        rcases hAll : (cl ++ '\n' :: "_data".toList).all identChar with _ | _
        · rfl
        · exfalso
          have := List.all_eq_true.mp hAll '\n' hmem
          simp [identChar] at this
      show (identStartChar c0 && (cl ++ '\n' :: "_data".toList).all identChar) = false
      rw [hall, Bool.and_false]
  · exfalso
    rw [SAFE_NAME_match] at hm
    simp only [if_neg hl, Bool.and_eq_true] at hm
    have := List.all_eq_true.mp hm.2 c hc
    rw [hcf] at this
    exact Bool.false_ne_true this

/-- C1 (amended): for every payload whose `station_id` value is a string
containing some character outside `[A-Za-z0-9_\x2d]`, `save_station_data`
fails and commits nothing to either ledger; the failure is
`InvalidIdentifier` (the `sanitize` `ValueError`) exactly when `SAFE_NAME`
rejects the identifier — identifiers consisting of safe characters
followed by one trailing `'\n'` slip past `sanitize` (Python's `$`
artifact) and fail at the storage layer instead, still committing
nothing. -/
theorem save_unsafe_id_rejected (data : List (String × JVal)) (db : DB)
    (sid : String)
    (hsid : pyGet data "station_id" = some (JVal.jstr sid))
    (hu : ∃ c ∈ sid.toList, safeChar c = false) :
    (save_station_data data db).1 = db ∧
    (save_station_data data db).2.isSome = true ∧
    ((save_station_data data db).2 = some SaveErr.invalidIdentifier ↔
      SAFE_NAME_match sid = false) := by
  rcases hm : SAFE_NAME_match sid with _ | _
  · rw [save_station_data, hsid]
    simp [hm]
  · have hident := ident_of_safe_newline hm hu
    unfold save_station_data
    rw [hsid]
    repeat' split
    all_goals simp_all

/-- Witness for C1 (amended) at the concrete unsafe identifier `"a!"`:
rejected by `sanitize` with `InvalidIdentifier`, nothing committed. -/
theorem save_unsafe_id_rejected_witness :
    (save_station_data (mkRecord "a!" 1 2 3 4) db0).1 = db0 ∧
    (save_station_data (mkRecord "a!" 1 2 3 4) db0).2.isSome = true ∧
    ((save_station_data (mkRecord "a!" 1 2 3 4) db0).2 =
        some SaveErr.invalidIdentifier ↔
      SAFE_NAME_match "a!" = false) :=
  save_unsafe_id_rejected (mkRecord "a!" 1 2 3 4) db0 "a!"
    (pyGet_mk_station "a!" 1 2 3 4) (by decide)

/-- Counterexample to C1 as stated: the identifier `"a\n"` contains a
character outside `[A-Za-z0-9_-]`, yet `sanitize` does not raise — Python's
`$` matches before a trailing newline — so the failure is a storage-layer
`OperationalError` (`storageFailure`), not `InvalidIdentifier` (no storage
mutation is committed either way). -/
theorem sanitize_trailing_newline_cex :
    SAFE_NAME_match "a\n" = true ∧
    sanitize "a\n" = some "a\n" ∧
    safeChar '\n' = false ∧
    save_station_data (mkRecord "a\n" 1 2 3 4) db0 =
      (db0, some SaveErr.storageFailure) ∧
    SaveErr.storageFailure ≠ SaveErr.invalidIdentifier := by
  decide

/-! ### C3: `get_latest_data` limit and ordering -/

/-- Well-formedness of reachable database states: global-ledger ids are
strictly increasing in insertion order (AUTOINCREMENT primary key, no
delete path). -/
def WFdb (db : DB) : Prop :=
  db.rows.Pairwise (fun a b => a.id < b.id)

/-- C3 (amended): for every storage state with the AUTOINCREMENT id
invariant and every **non-negative** limit, `get_latest_data` returns at
most `limit` rows and returns exactly the last `limit` insertions in
reverse insertion order (`ORDER BY id DESC`) — the producer-supplied
`timestamp` column is never consulted, so a late insertion with an early
timestamp still comes first.  (For a negative limit SQLite disables the
bound; see the counterexample.) -/
theorem get_latest_data_spec (db : DB) (limit : Int)
    (l : List (String × SqlVal × SqlVal × SqlVal × SqlVal))
    (hwf : WFdb db) (hlim : 0 ≤ limit)
    (hq : get_latest_data limit db = .ok l) :
    l.length ≤ limit.toNat ∧
    l = ((db.rows.reverse).take limit.toNat).map projRow := by
  rw [get_latest_data] at hq
  split at hq
  · exact absurd hq (by simp)
  · rw [if_neg (by omega), insertionSort_eq_reverse db.rows hwf] at hq
    simp only [Except.ok.injEq] at hq
    subst hq
    refine ⟨?_, rfl⟩
    calc (((db.rows.reverse).take limit.toNat).map projRow).length
        = ((db.rows.reverse).take limit.toNat).length := List.length_map _ _
      _ ≤ limit.toNat := List.length_take_le _ _

/-- Witness for C3 (amended) on a one-row database with limit 1. -/
theorem get_latest_data_spec_witness :
    ([("s1", SqlVal.num 1, SqlVal.num 2, SqlVal.num 3, SqlVal.num 4)] :
      List (String × SqlVal × SqlVal × SqlVal × SqlVal)).length ≤
        (1 : Int).toNat ∧
    [("s1", SqlVal.num 1, SqlVal.num 2, SqlVal.num 3, SqlVal.num 4)] =
      ((dbOne.rows.reverse).take (1 : Int).toNat).map projRow :=
  get_latest_data_spec dbOne 1 _ (by simp [WFdb, dbOne]) (by decide) (by decide)

/-- Counterexample to C3 as stated ("for every limit"): `limit` is a raw
Python `int` and SQLite treats a negative `LIMIT` as unlimited, so with
`limit = -1` the query returns one row from a one-row table — more than
`limit` — rather than at most `-1` rows. -/
theorem get_latest_data_negative_limit_cex :
    get_latest_data (-1) dbOne = .ok [projRow ⟨1, "s1", .num 1, .num 2, .num 3, .num 4⟩] ∧
    ¬ (([projRow ⟨1, "s1", .num 1, .num 2, .num 3, .num 4⟩].length : Int) ≤ -1) := by
  decide

lemma handle_client_cons (f : List Nat) (rest : List (List Nat))
    (db db2 : DB) (hne : ¬ f = [])
    (hf : handleFrame db f = Except.ok db2) :
    handle_client (f :: rest) db = handle_client rest db2 := by
  simp only [handle_client, if_neg hne, hf]

lemma handle_client_err (f : List Nat) (rest : List (List Nat)) (db : DB)
    (hne : ¬ f = []) (hf : handleFrame db f = Except.error ()) :
    handle_client (f :: rest) db = db := by
  simp only [handle_client, if_neg hne, hf]

/-! ### C5: oversized frames -/

/-- C5 (amended): the handler's size check runs on the decoded,
whitespace-stripped text, so every frame whose stripped character count
exceeds 2048 is dropped without touching storage, the connection stays
open, and the remaining frames are processed exactly as if the oversized
frame had never arrived. -/
theorem oversized_message_dropped (frame : List Nat)
    (rest : List (List Nat)) (db : DB)
    (hlen : 2048 < (pyStrip (utf8DecodeReplace frame)).length) :
    handleFrame db frame = Except.ok db ∧
    handle_client (frame :: rest) db = handle_client rest db := by
  have hne : ¬ frame = [] := by
    intro e
    rw [e] at hlen
    simp [utf8DecodeReplace, pyStrip, List.dropWhile] at hlen
  have hf : handleFrame db frame = Except.ok db := by
    simp only [handleFrame]
    split
    · rfl
    · rename_i hcond
      exact absurd hlen hcond
  refine ⟨hf, ?_⟩
  simp only [handle_client, if_neg hne, hf]

lemma utf8_cons_low (b : Nat) (hb : b ≤ 0x7F) (bs : List Nat) :
    utf8DecodeReplace (b :: bs) = Char.ofNat b :: utf8DecodeReplace bs := by
  rw [utf8DecodeReplace.eq_def]
  simp [hb]

lemma decode_space_replicate (n : Nat) (bs : List Nat) :
    utf8DecodeReplace (List.replicate n 32 ++ bs) =
      List.replicate n ' ' ++ utf8DecodeReplace bs := by
  induction n with
  | zero => simp
  | succ k ih =>
    rw [List.replicate_succ, List.cons_append,
      utf8_cons_low 32 (by norm_num), ih, List.replicate_succ]
    rfl

lemma decode_a_replicate (n : Nat) :
    utf8DecodeReplace (List.replicate n 97) = List.replicate n 'a' := by
  induction n with
  | zero => rfl
  | succ k ih =>
    rw [List.replicate_succ, utf8_cons_low 97 (by norm_num), ih,
      List.replicate_succ]

lemma dropWhile_replicate_of_false {p : Char → Bool} {a : Char}
    (h : p a = false) (n : Nat) :
    List.dropWhile p (List.replicate n a) = List.replicate n a := by
  cases n with
  | zero => rfl
  | succ k => rw [List.replicate_succ, List.dropWhile_cons, h]; simp

lemma dropWhile_replicate_append {p : Char → Bool} {a : Char}
    (h : p a = true) (n : Nat) (cs : List Char) :
    List.dropWhile p (List.replicate n a ++ cs) = List.dropWhile p cs := by
  induction n with
  | zero => simp
  | succ k ih =>
    rw [List.replicate_succ, List.cons_append, List.dropWhile_cons, h]
    simpa using ih

lemma strip_space_replicate (n : Nat) (cs : List Char) :
    pyStrip (List.replicate n ' ' ++ cs) = pyStrip cs := by
  unfold pyStrip
  rw [dropWhile_replicate_append (by decide) n cs]

lemma strip_a_replicate (n : Nat) :
    pyStrip (List.replicate n 'a') = List.replicate n 'a' := by
  unfold pyStrip
  rw [dropWhile_replicate_of_false (by decide),
    List.reverse_replicate, dropWhile_replicate_of_false (by decide),
    List.reverse_replicate]

/-- Witness for C5 (amended): a frame of 2100 letters is dropped and the
(empty) remainder of the session is unaffected. -/
theorem oversized_message_dropped_witness :
    handleFrame db0 (List.replicate 2100 97) = Except.ok db0 ∧
    handle_client [List.replicate 2100 97] db0 = handle_client [] db0 :=
  oversized_message_dropped (List.replicate 2100 97) [] db0
    (by rw [decode_a_replicate, strip_a_replicate, List.length_replicate]
        norm_num)

/-- A valid reading for station `s9` followed by the line feed: 74 bytes. -/
def smallBytes : List Nat :=
  asciiBytes "\x7b\"station_id\":\"s9\",\"timestamp\":5,\"temperature\":6,\"humidity\":7,\"wind\":8\x7d" ++
    [10]

/-- 2100 padding spaces then `smallBytes`: far beyond 2048 bytes on the
wire, 73 characters after decode + strip. -/
def bigFrame : List Nat := List.replicate 2100 32 ++ smallBytes

/-- The database holding exactly the `s9` reading of `smallBytes`. -/
def dbNine : DB :=
  { schema := some weatherSchema, seq := 1,
    rows := [⟨1, "s9", .num 5, .num 6, .num 7, .num 8⟩],
    stations := [("s9_data", [⟨.num 5, .num 6, .num 8, .num 7⟩])] }

/-- Counterexample to C5 as stated: `bigFrame` exceeds the 2048-byte
maximum on the wire, yet the handler does not drop it — the size check is
applied to the decoded, stripped character count (73 here), so the frame
is validated and stored. -/
theorem oversized_frame_processed_cex :
    2048 < bigFrame.length ∧
    handle_client [bigFrame] db0 ≠ db0 ∧
    (handle_client [bigFrame] db0).rows.map projRow =
      [("s9", .num 5, .num 6, .num 7, .num 8)] := by
  have hmsg : pyStrip (utf8DecodeReplace bigFrame) =
      pyStrip (utf8DecodeReplace smallBytes) := by
    rw [show bigFrame = List.replicate 2100 32 ++ smallBytes from rfl,
      decode_space_replicate, strip_space_replicate]
  have hframe : handleFrame db0 bigFrame = handleFrame db0 smallBytes := by
    simp only [handleFrame, hmsg]
  have hsmall : handleFrame db0 smallBytes = Except.ok dbNine := by decide
  have hne : ¬ bigFrame = [] := by
    intro e
    have hlen := congrArg List.length e
    rw [show bigFrame = List.replicate 2100 32 ++ smallBytes from rfl,
      List.length_append, List.length_replicate] at hlen
    simp at hlen
  have hrun : handle_client [bigFrame] db0 = dbNine := by
    rw [handle_client_cons bigFrame [] db0 dbNine hne (hframe.trans hsmall)]
    rfl
  rw [hrun]
  refine ⟨?_, by decide, by decide⟩
  rw [show bigFrame = List.replicate 2100 32 ++ smallBytes from rfl,
    List.length_append, List.length_replicate]
  omega

/-! ### C6: frames missing a required field -/

/-- Whether a parsed frame is a JSON object missing one of the five
required keys (the situation C6 is about). -/
def objMissingKey (v : JVal) : Bool :=
  match v with
  | .jobj kvs => !(requiredKeys.all (fun k => kvs.any (fun p => p.1 = k)))
  | _ => false

/-- C6 (amended): every frame that decodes to a JSON **object** missing
one of the five required fields is discarded — `required.issubset(data)`
is false, so `process_message` returns before touching storage — and the
read loop goes on to the next frame as if nothing happened.  (A decodable
frame whose top level is not iterable — a bare number, `true`/`false` or
`null` — instead raises `TypeError` out of `issubset` and tears the
connection down; see the counterexample.) -/
theorem missing_field_dropped (frame : List Nat) (rest : List (List Nat))
    (db : DB) (hne : ¬ frame = [])
    (hmiss : (jsonParse ⟨pyStrip (utf8DecodeReplace frame)⟩).toOption.any
        objMissingKey = true) :
    handleFrame db frame = Except.ok db ∧
    handle_client (frame :: rest) db = handle_client rest db := by
  have hf : handleFrame db frame = Except.ok db := by
    simp only [handleFrame]
    split
    · rfl
    · rcases hj : jsonParse ⟨pyStrip (utf8DecodeReplace frame)⟩ with e | v
      · rw [hj] at hmiss
        simp [Except.toOption] at hmiss
      · rw [hj] at hmiss
        simp only [Except.toOption, Option.any_some] at hmiss
        cases v with
        | jobj kvs =>
          have hall : requiredKeys.all
              (fun k => kvs.any (fun p => p.1 = k)) = false := by
            simpa [objMissingKey] using hmiss
          rw [process_message, hj]
          simp only [requiredSubset, hall]
        | jnull => simp [objMissingKey] at hmiss
        | jbool b => simp [objMissingKey] at hmiss
        | jnum q => simp [objMissingKey] at hmiss
        | jstr s => simp [objMissingKey] at hmiss
        | jarr xs => simp [objMissingKey] at hmiss
  exact ⟨hf, by simp only [handle_client, if_neg hne, hf]⟩

/-- A frame whose object carries only `station_id` (no `timestamp`,
`temperature`, `humidity` or `wind`). -/
def fMiss : List Nat := asciiBytes "\x7b\"station_id\":\"s1\"\x7d" ++ [10]

/-- A complete valid reading for station `s1`. -/
def goodFrame : List Nat :=
  asciiBytes "\x7b\"station_id\":\"s1\",\"timestamp\":1,\"temperature\":2,\"humidity\":3,\"wind\":4\x7d" ++
    [10]

/-- Witness for C6 (amended): the field-less frame is dropped and the
following valid frame is handled as if the bad frame had never arrived. -/
theorem missing_field_dropped_witness :
    handleFrame db0 fMiss = Except.ok db0 ∧
    handle_client [fMiss, goodFrame] db0 = handle_client [goodFrame] db0 :=
  missing_field_dropped fMiss [goodFrame] db0 (by decide) (by decide)

/-- A decodable frame whose top level is the bare number `5`. -/
def frame5 : List Nat := asciiBytes "5" ++ [10]

/-- Counterexample to C6 as stated ("for every decodable frame"): the
frame `5` is decodable and lacks all five required fields, yet validation
does not fail with `MissingField` — `required.issubset(5)` raises
`TypeError`, which `process_message` does not catch — and the handler does
not continue: the connection is torn down and a following valid frame is
never processed (it would have been stored had the loop continued). -/
theorem nonobject_frame_closes_connection_cex :
    process_message "5" db0 = Except.error () ∧
    handle_client [frame5, goodFrame] db0 = db0 ∧
    handle_client [goodFrame] db0 ≠ db0 := by
  exact ⟨by decide, by decide, by decide⟩

/-! ### C10: undecodable frames -/

lemma skipWs_cons {c : Char} (l : List Char) (h : isJsonWs c = false) :
    skipWs (c :: l) = c :: l := by
  simp [skipWs, List.dropWhile_cons, h]

lemma valid_cons_low (b : Nat) (hb : b ≤ 0x7F) (bs : List Nat) :
    validUtf8 (b :: bs) = validUtf8 bs := by
  rw [validUtf8.eq_def]
  simp [hb]

lemma decode_bracket_replicate (n : Nat) (bs : List Nat) :
    utf8DecodeReplace (List.replicate n 91 ++ bs) =
      List.replicate n '[' ++ utf8DecodeReplace bs := by
  induction n with
  | zero => simp
  | succ k ih =>
    rw [List.replicate_succ, List.cons_append,
      utf8_cons_low 91 (by norm_num), ih, List.replicate_succ]
    rfl

lemma valid_bracket_replicate (n : Nat) (bs : List Nat) :
    validUtf8 (List.replicate n 91 ++ bs) = validUtf8 bs := by
  induction n with
  | zero => simp
  | succ k ih =>
    rw [List.replicate_succ, List.cons_append,
      valid_cons_low 91 (by norm_num), ih]

lemma strip_bracket_replicate (n : Nat) :
    pyStrip (List.replicate n '[' ++ [replChar, '\n']) =
      List.replicate n '[' ++ [replChar] := by
  unfold pyStrip
  have h1 : List.dropWhile pyIsSpace
      (List.replicate n '[' ++ [replChar, '\n']) =
      List.replicate n '[' ++ [replChar, '\n'] := by
    cases n with
    | zero =>
      rw [List.replicate, List.nil_append,
        List.dropWhile_cons_of_neg (by decide)]
    | succ k =>
      rw [List.replicate_succ, List.cons_append,
        List.dropWhile_cons_of_neg (by decide)]
  rw [h1, List.reverse_append]
  have h2 : List.dropWhile pyIsSpace
      (([replChar, '\n'] : List Char).reverse ++
        (List.replicate n '[').reverse) =
      replChar :: (List.replicate n '[').reverse := by
    rw [show ([replChar, '\n'] : List Char).reverse = ['\n', replChar]
        from by decide,
      List.cons_append, List.dropWhile_cons_of_pos (by decide),
      List.cons_append, List.dropWhile_cons_of_neg (by decide),
      List.nil_append]
  rw [h2]
  simp [List.reverse_replicate]

lemma parse_deep_brackets :
    ∀ (m d n fuel : Nat) (rest : List Char),
      pyRecursionLimit - d = m →
      1 ≤ n →
      pyRecursionLimit < d + n →
      2 * m + 1 ≤ fuel →
      parseF fuel d .pval (List.replicate n '[' ++ rest) =
        .error JErr.recursion := by
  intro m
  induction m with
  | zero =>
    intro d n fuel rest hm hn1 hn hf
    have hd : pyRecursionLimit ≤ d := by omega
    obtain ⟨n2, rfl⟩ : ∃ n2, n = n2 + 1 := ⟨n - 1, by omega⟩
    obtain ⟨f, rfl⟩ : ∃ f, fuel = f + 1 := ⟨fuel - 1, by omega⟩
    rw [List.replicate_succ, List.cons_append, parseF,
      skipWs_cons _ (by decide)]
    simp only []
    rw [if_neg (by decide : ¬ ('[' : Char) = lbrace)]
    simp only [if_true]
    rw [if_pos hd]
  | succ k ih =>
    intro d n fuel rest hm hn1 hn hf
    have hd : ¬ pyRecursionLimit ≤ d := by omega
    obtain ⟨n2, rfl⟩ : ∃ n2, n = n2 + 1 := ⟨n - 1, by omega⟩
    have hn2 : 1 ≤ n2 := by omega
    obtain ⟨n3, rfl⟩ : ∃ n3, n2 = n3 + 1 := ⟨n2 - 1, by omega⟩
    obtain ⟨f, rfl⟩ : ∃ f, fuel = f + 1 := ⟨fuel - 1, by omega⟩
    obtain ⟨f2, rfl⟩ : ∃ f2, f = f2 + 1 := ⟨f - 1, by omega⟩
    rw [List.replicate_succ, List.cons_append, parseF,
      skipWs_cons _ (by decide)]
    simp only []
    rw [if_neg (by decide : ¬ ('[' : Char) = lbrace)]
    simp only [if_true]
    rw [if_neg hd]
    rw [List.replicate_succ, List.cons_append, skipWs_cons _ (by decide)]
    simp only []
    rw [if_neg (by decide : ¬ ('[' : Char) = ']')]
    rw [parseF]
    have hrec := ih (d + 1) (n3 + 1) f2 rest (by omega) (by omega)
      (by omega) (by omega)
    rw [List.replicate_succ, List.cons_append] at hrec
    rw [hrec]

/-- 1500 opening brackets, one invalid byte, the line feed: 1502 bytes,
1501 characters after decode + strip — inside the 2048 size check. -/
def deepFrame : List Nat := List.replicate 1500 91 ++ [255, 10]

/-- The recursion-guard escape path that bounds C10: `deepFrame` is
undecodable UTF-8, passes the size check, and `json.loads` raises
`RecursionError` (1500 nested arrays exceed `pyRecursionLimit`), which
`except json.JSONDecodeError` does not catch; `handle_client`'s outer
`except` then tears the connection down, so a following valid frame is
never processed. -/
lemma deep_nesting_closes_connection :
    validUtf8 deepFrame = false ∧
    handleFrame db0 deepFrame = Except.error () ∧
    handle_client [deepFrame, goodFrame] db0 = db0 := by
  have hdec : utf8DecodeReplace deepFrame =
      List.replicate 1500 '[' ++ [replChar, '\n'] := by
    rw [show deepFrame = List.replicate 1500 91 ++ [255, 10] from rfl,
      decode_bracket_replicate,
      show utf8DecodeReplace [255, 10] = [replChar, '\n'] from by decide]
  have hstrip : pyStrip (utf8DecodeReplace deepFrame) =
      List.replicate 1500 '[' ++ [replChar] := by
    rw [hdec, strip_bracket_replicate]
  have hlen : (List.replicate 1500 '[' ++ [replChar]).length = 1501 := by
    rw [List.length_append, List.length_replicate]
    rfl
  have hjson : jsonParse ⟨List.replicate 1500 '[' ++ [replChar]⟩ =
      .error JErr.recursion := by
    rw [jsonParse]
    have htl : (⟨List.replicate 1500 '[' ++ [replChar]⟩ : String).toList =
        List.replicate 1500 '[' ++ [replChar] := rfl
    rw [parseVal, htl, hlen]
    rw [parse_deep_brackets 1000 0 1500 (2 * 1501 + 2) [replChar]
      (by decide) (by decide) (by decide) (by decide)]
  have hf : handleFrame db0 deepFrame = Except.error () := by
    simp only [handleFrame]
    rw [if_neg (by rw [show ((⟨pyStrip (utf8DecodeReplace deepFrame)⟩ :
          String)).length = (pyStrip (utf8DecodeReplace deepFrame)).length
          from rfl, hstrip, hlen]; omega)]
    rw [process_message]
    rw [show (⟨pyStrip (utf8DecodeReplace deepFrame)⟩ : String) =
      ⟨List.replicate 1500 '[' ++ [replChar]⟩ from by rw [hstrip]]
    rw [hjson]
  refine ⟨?_, hf, ?_⟩
  · rw [show deepFrame = List.replicate 1500 91 ++ [255, 10] from rfl,
      valid_bracket_replicate]
    decide
  · have hne : ¬ deepFrame = [] := by
      intro e
      have := congrArg List.length e
      rw [show deepFrame = List.replicate 1500 91 ++ [255, 10] from rfl,
        List.length_append, List.length_replicate] at this
      simp at this
    exact handle_client_err deepFrame [goodFrame] db0 hne hf
